import Mathlib

/-
Verification of the KDump binary-format decoder and symbolic disassembler.

This file shallowly embeds the byte-level parsers of the KSM (compiled
machine code) reader and the KO (relocatable object) dump logic, translated
from the Rust sources:
  src/ksm_reader/mod.rs      (KSMFileReader byte cursor)
  src/ksm_reader/sections.rs (CodeSection / DebugSection / DebugEntry)
  src/instruction/mod.rs     (Instr)
  src/argument/mod.rs        (read_argument, legacy lineage)
  src/output/ko.rs           (relocation resolution for KO dumps)
Bytes are naturals < 256; machine integers are modelled with Nat/Int and
explicit two's-complement conversions where the Rust code casts.
-/

namespace KDump

/-- Sequential byte reader over the decompressed KSM file contents,
translated from struct KSMFileReader in src/ksm_reader/mod.rs.
contents is the decompressed byte buffer, current_index the read position,
and the two width fields mirror arg_address_bytes / debug_range_bytes. -/
structure KSMFileReader where
  contents : List Nat
  current_index : Nat
  arg_address_bytes : Nat
  debug_range_bytes : Nat
deriving DecidableEq, Repr

namespace KSMFileReader

/-- Translation of KSMFileReader::next: return the byte at current_index and
advance by one, or report an unexpected EOF.  (The Rust code increments first
and indexes at current_index - 1, which is the same thing.) -/
def next (r : KSMFileReader) : Except String (Nat × KSMFileReader) :=
  match r.contents[r.current_index]? with
  | some b => .ok (b, { r with current_index := r.current_index + 1 })
  | none => .error "Unexpected EOF reached"

/-- Translation of KSMFileReader::peek: the byte at current_index without
advancing. -/
def peek (r : KSMFileReader) : Except String Nat :=
  match r.contents[r.current_index]? with
  | some b => .ok b
  | none => .error "Unexpected EOF reached"

/-- Translation of KSMFileReader::pop: advance by bytes positions; the Rust
code first adds and then checks current_index <= contents.len(). -/
def pop (r : KSMFileReader) (bytes : Nat) : Except String KSMFileReader :=
  if r.current_index + bytes ≤ r.contents.length then
    .ok { r with current_index := r.current_index + bytes }
  else
    .error "Unexpected EOF reached"

/-- Translation of KSMFileReader::eof:
self.current_index >= (self.contents.len() - 1).
The subtraction is on usize, so for an empty buffer it wraps around (release
build semantics) to 2^64 - 1; that wrap is modelled here explicitly. -/
def eof (r : KSMFileReader) : Bool :=
  decide ((r.contents.length + (2 ^ 64 - 1)) % 2 ^ 64 ≤ r.current_index)

/-- Interpretation of two little-endian bytes as an i16, as in
i16::from_le_bytes used by KSMFileReader::read_int16. -/
def i16_from_le_bytes (b0 b1 : Nat) : Int :=
  if b0 + 256 * b1 < 32768 then ((b0 + 256 * b1 : Nat) : Int)
  else ((b0 + 256 * b1 : Nat) : Int) - 65536

/-- Translation of KSMFileReader::read_int16: two bytes, little-endian,
signed. -/
def read_int16 (r : KSMFileReader) : Except String (Int × KSMFileReader) :=
  match r.next with
  | .error e => .error e
  | .ok (b0, r1) =>
    match r1.next with
    | .error e => .error e
    | .ok (b1, r2) => .ok (i16_from_le_bytes b0 b1, r2)

/-- Translation of KSMFileReader::read_uint16_be: two bytes, big-endian. -/
def read_uint16_be (r : KSMFileReader) : Except String (Nat × KSMFileReader) :=
  match r.next with
  | .error e => .error e
  | .ok (b0, r1) =>
    match r1.next with
    | .error e => .error e
    | .ok (b1, r2) => .ok (256 * b0 + b1, r2)

/-- Translation of KSMFileReader::read_uint32_be: four bytes, big-endian. -/
def read_uint32_be (r : KSMFileReader) : Except String (Nat × KSMFileReader) :=
  match r.read_uint16_be with
  | .error e => .error e
  | .ok (hi, r1) =>
    match r1.read_uint16_be with
    | .error e => .error e
    | .ok (lo, r2) => .ok (65536 * hi + lo, r2)

/-- Translation of KSMFileReader::read_bytes_into_u32.  The 0 arm is a
panic! in the Rust source, modelled as a distinguished error; the widths
1-4 compose big-endian; other widths are a plain error. -/
def read_bytes_into_u32 (r : KSMFileReader) (bytes : Nat) :
    Except String (Nat × KSMFileReader) :=
  match bytes with
  | 1 => r.next
  | 2 => r.read_uint16_be
  | 3 =>
    match r.read_uint16_be with
    | .error e => .error e
    | .ok (hi, r1) =>
      match r1.next with
      | .error e => .error e
      | .ok (b, r2) => .ok (hi * 0x010000 + b, r2)
  | 4 => r.read_uint32_be
  | 0 => .error "panic: One should never try to read 0 bytes."
  | _ =>
    .error "Currently reading more than 4 bytes at a time into an address is unsupported"

/-- Translation of KSMFileReader::read_argument_address. -/
def read_argument_address (r : KSMFileReader) :
    Except String (Nat × KSMFileReader) :=
  r.read_bytes_into_u32 r.arg_address_bytes

/-- Translation of KSMFileReader::read_debug_range_address. -/
def read_debug_range_address (r : KSMFileReader) :
    Except String (Nat × KSMFileReader) :=
  r.read_bytes_into_u32 r.debug_range_bytes

end KSMFileReader

/-- Translation of struct Instr in src/instruction/mod.rs: opcode byte,
operand width in bytes, stored operand count, decoded operand values. -/
structure Instr where
  opcode : Nat
  operand_width : Nat
  num_operands : Nat
  operands : List Nat
deriving DecidableEq, Repr

namespace Instr

/-- Translation of Instr::opcode_num_operands in src/instruction/mod.rs.
Known opcodes map to arity 0, 1 or 2; the default arm returns 255. -/
def opcode_num_operands (opcode : Nat) : Nat :=
  match opcode with
  | 0x31 => 0
  | 0x32 => 0
  | 0x33 => 0
  | 0x34 => 1
  | 0x35 => 0
  | 0x36 => 1
  | 0x37 => 1
  | 0x38 => 0
  | 0x39 => 0
  | 0x3a => 1
  | 0x3b => 1
  | 0x3c => 0
  | 0x3d => 0
  | 0x3e => 0
  | 0x3f => 0
  | 0x40 => 0
  | 0x41 => 0
  | 0x42 => 0
  | 0x43 => 0
  | 0x44 => 0
  | 0x45 => 0
  | 0x46 => 0
  | 0x47 => 0
  | 0x48 => 0
  | 0x49 => 0
  | 0x4a => 0
  | 0x4b => 0
  | 0x4c => 2
  | 0x4d => 1
  | 0x4e => 1
  | 0x4f => 0
  | 0x50 => 0
  | 0x51 => 0
  | 0x52 => 0
  | 0x53 => 2
  | 0x54 => 0
  | 0x55 => 0
  | 0x56 => 0
  | 0x57 => 1
  | 0x58 => 1
  | 0x59 => 1
  | 0x5a => 2
  | 0x5b => 1
  | 0x5c => 1
  | 0x5d => 2
  | 0x5e => 1
  | 0x5f => 0
  | 0x60 => 0
  | 0x61 => 0
  | 0x62 => 0
  | 0xce => 1
  | 0xcd => 2
  | 0xf0 => 1
  | _ => 255

/-- Translation of Instr::size: 1 + operand_width * num_operands, computed
on u8, hence reduced modulo 256. -/
def size (i : Instr) : Nat :=
  (1 + i.operand_width * i.num_operands) % 256

end Instr

/-- Operand-reading loop of Instr::read: read the given number of argument
addresses in order. -/
def readOperands : Nat → KSMFileReader → Except String (List Nat × KSMFileReader)
  | 0, r => .ok ([], r)
  | n + 1, r =>
    match r.read_argument_address with
    | .error e => .error e
    | .ok (a, r1) =>
      match readOperands n r1 with
      | .error e => .error e
      | .ok (rest, r2) => .ok (a :: rest, r2)

/-- Translation of Instr::read in src/instruction/mod.rs: read the opcode
byte, look up the operand count (255 for unknown opcodes), then read that
many operand addresses.  There is no arity-validity check. -/
def Instr.read (r : KSMFileReader) : Except String (Instr × KSMFileReader) :=
  match r.next with
  | .error e => .error e
  | .ok (opcode, r1) =>
    let num_operands := Instr.opcode_num_operands opcode
    match readOperands num_operands r1 with
    | .error e => .error e
    | .ok (operands, r2) =>
      .ok (⟨opcode, r2.arg_address_bytes, num_operands, operands⟩, r2)

/-- Translation of enum SectionType in src/ksm_reader/sections.rs. -/
inductive SectionType where
  | FUNCTION
  | INITIALIZATION
  | MAIN
deriving DecidableEq, Repr

/-- Marker-pair counting loop of CodeSection::read_section_type: while the
peeked byte is 37 (the ASCII percent sign), pop two bytes and count one try.
The fuel argument only bounds the loop; callers pass more fuel than any
possible iteration count, so the 0 arm is unreachable on real inputs. -/
def count_marker_pairs : Nat → Nat → KSMFileReader → Except String (Nat × KSMFileReader)
  | 0, _, _ => .error "loop fuel exhausted"
  | fuel + 1, tries, r =>
    match r.peek with
    | .error e => .error e
    | .ok b =>
      if b = 37 then
        match r.pop 2 with
        | .error e => .error e
        | .ok r1 => count_marker_pairs fuel (tries + 1) r1
      else .ok (tries, r)

/-- Translation of CodeSection::read_section_type in
src/ksm_reader/sections.rs: expect the bytes 37 70 (the ASCII characters
percent and F), count the consecutive marker pairs that follow, and map
0, 1, 2 repeats to FUNCTION, INITIALIZATION, MAIN; any larger count is a
parse error. -/
def CodeSection.read_section_type (r : KSMFileReader) :
    Except String (SectionType × KSMFileReader) :=
  match r.next with
  | .error e => .error e
  | .ok (b1, r1) =>
    if b1 ≠ 37 then
      .error ("Expected start of function section at index " ++ toString r1.current_index)
    else
      match r1.next with
      | .error e => .error e
      | .ok (b2, r2) =>
        if b2 ≠ 70 then
          .error ("Expected start of function section at index " ++ toString r2.current_index)
        else
          match count_marker_pairs (r2.contents.length + 1) 0 r2 with
          | .error e => .error e
          | .ok (tries, r3) =>
            match tries with
            | 0 => .ok (.FUNCTION, r3)
            | 1 => .ok (.INITIALIZATION, r3)
            | 2 => .ok (.MAIN, r3)
            | _ => .error "Expected code section, none found!"

/-- Translation of struct CodeSection in src/ksm_reader/sections.rs.  The
index_to_offset map is omitted: it is only used by the commented-out
address display.  num_real_instructions counts non-labelreset
instructions, as computed by CodeSection::new. -/
structure CodeSection where
  section_type : SectionType
  instructions : List Instr
  size : Nat
  num_real_instructions : Nat
deriving DecidableEq, Repr

/-- Translation of CodeSection::new: store the parts and count the
instructions whose opcode is not 0xf0 (labelreset). -/
def CodeSection.new (section_type : SectionType) (instructions : List Instr)
    (size : Nat) : CodeSection :=
  ⟨section_type, instructions, size,
    instructions.countP (fun i => i.opcode != 0xf0)⟩

/-- Instruction-reading loop of CodeSection::read: while the peeked byte is
not 37 (percent), read one instruction and add its size to the running
size accumulator (which CodeSection::read starts at 6).  Fuel bounds the
loop; callers pass more fuel than any possible iteration count. -/
def readInstrsLoop : Nat → Nat → KSMFileReader → Except String (List Instr × Nat × KSMFileReader)
  | 0, _, _ => .error "loop fuel exhausted"
  | fuel + 1, size, r =>
    match r.peek with
    | .error e => .error e
    | .ok b =>
      if b = 37 then .ok ([], size, r)
      else
        match Instr.read r with
        | .error e => .error e
        | .ok (i, r1) =>
          match readInstrsLoop fuel (size + i.size) r1 with
          | .error e => .error e
          | .ok (rest, size2, r2) => .ok (i :: rest, size2, r2)

/-- Translation of CodeSection::read in src/ksm_reader/sections.rs: the
recorded size starts at 6 for every section type, instructions are read
until the next percent byte, and the trailing marker bytes are popped
(4 for FUNCTION, 2 for INITIALIZATION, 0 for MAIN). -/
def CodeSection.read (r : KSMFileReader) : Except String (CodeSection × KSMFileReader) :=
  match CodeSection.read_section_type r with
  | .error e => .error e
  | .ok (section_type, r1) =>
    match readInstrsLoop (r1.contents.length + 1) 6 r1 with
    | .error e => .error e
    | .ok (instructions, size, r2) =>
      let popped : Except String KSMFileReader :=
        match section_type with
        | .FUNCTION => r2.pop 4
        | .INITIALIZATION => r2.pop 2
        | .MAIN => .ok r2
      match popped with
      | .error e => .error e
      | .ok r3 => .ok (CodeSection.new section_type instructions size, r3)

/-- Translation of struct DebugEntry in src/ksm_reader/sections.rs; the
line number is stored as a u16 (here a natural < 65536). -/
structure DebugEntry where
  line_number : Nat
  number_ranges : Nat
  ranges : List (Nat × Nat)
deriving DecidableEq, Repr

/-- Conversion of an i16 value to u16, as in the Rust cast
reader.read_int16()? as u16. -/
def u16_of_int (v : Int) : Nat :=
  (v % 65536).toNat

/-- Range-reading loop of DebugEntry::read: read the given number of
(start, end) pairs, each component in the debug range-address width. -/
def readRanges : Nat → KSMFileReader → Except String (List (Nat × Nat) × KSMFileReader)
  | 0, r => .ok ([], r)
  | n + 1, r =>
    match r.read_debug_range_address with
    | .error e => .error e
    | .ok (range_start, r1) =>
      match r1.read_debug_range_address with
      | .error e => .error e
      | .ok (range_end, r2) =>
        match readRanges n r2 with
        | .error e => .error e
        | .ok (rest, r3) => .ok ((range_start, range_end) :: rest, r3)

/-- Translation of DebugEntry::read in src/ksm_reader/sections.rs: a
2-byte little-endian line number (read_int16, then cast to u16), a 1-byte
range count, then that many (start, end) range-address pairs. -/
def DebugEntry.read (r : KSMFileReader) : Except String (DebugEntry × KSMFileReader) :=
  match r.read_int16 with
  | .error e => .error e
  | .ok (v, r1) =>
    let line_number := u16_of_int v
    match r1.next with
    | .error e => .error e
    | .ok (number_ranges, r2) =>
      match readRanges number_ranges r2 with
      | .error e => .error e
      | .ok (ranges, r3) => .ok (⟨line_number, number_ranges, ranges⟩, r3)

/-- Translation of struct DebugSection in src/ksm_reader/sections.rs. -/
structure DebugSection where
  range_size : Nat
  max_line_number : Nat
  debug_entries : List DebugEntry
deriving DecidableEq, Repr

/-- Entry-reading loop of DebugSection::read: while the reader's eof flag
is false, read one debug entry.  Fuel bounds the loop; callers pass more
fuel than any possible iteration count. -/
def readDebugEntries : Nat → KSMFileReader → Except String (List DebugEntry × KSMFileReader)
  | 0, _ => .error "loop fuel exhausted"
  | fuel + 1, r =>
    if r.eof then .ok ([], r)
    else
      match DebugEntry.read r with
      | .error e => .error e
      | .ok (entry, r1) =>
        match readDebugEntries fuel r1 with
        | .error e => .error e
        | .ok (rest, r2) => .ok (entry :: rest, r2)

/-- Translation of DebugSection::read in src/ksm_reader/sections.rs:
expect the two marker bytes 37 68 (percent, D), read the 1-byte range
size into the reader, then read debug entries while eof is false.  The
running maximum line number is equivalently computed by a fold over the
decoded entries in order. -/
def DebugSection.read (r : KSMFileReader) : Except String (DebugSection × KSMFileReader) :=
  match r.next with
  | .error e => .error e
  | .ok (b1, r1) =>
    if b1 ≠ 37 then .error "Debug section expected"
    else
      match r1.next with
      | .error e => .error e
      | .ok (b2, r2) =>
        if b2 ≠ 68 then .error "Debug section expected"
        else
          match r2.next with
          | .error e => .error e
          | .ok (range_size, r3) =>
            let r4 : KSMFileReader := { r3 with debug_range_bytes := range_size }
            match readDebugEntries (r4.contents.length + 1) r4 with
            | .error e => .error e
            | .ok (debug_entries, r5) =>
              let max_line_number := debug_entries.foldl
                (fun m e => if e.line_number > m then e.line_number else m) 0
              .ok (⟨range_size, max_line_number, debug_entries⟩, r5)

/-- Modelled from the spec: the Value enum returned by Argument::get_value
(the file defining the Argument struct and Value enum used by
src/ksm_reader/sections.rs is not present under src/).  Spec section 3
fixes its 13 variants, which also match the legacy Argument enum in
src/argument/mod.rs.  Texts are byte lists, matching the byte-for-byte
strings the reader builds; float payloads are kept as raw little-endian
bit patterns since no claim depends on float semantics. -/
inductive Value where
  | NULL
  | Boolean (b : Bool)
  | Byte (v : Int)
  | Int16 (v : Int)
  | Int32 (v : Int)
  | Float (bits : Nat)
  | Double (bits : Nat)
  | String (s : List Nat)
  | ArgMarker
  | ScalarIntValue (v : Int)
  | ScalarDoubleValue (bits : Nat)
  | BooleanValue (b : Bool)
  | StringValue (s : List Nat)
deriving DecidableEq, Repr

/-- Byte view of a string literal, for readable statements about the
byte-list texts used by the embedding. -/
def str_bytes (s : String) : List Nat :=
  s.data.map Char.toNat

/-- Decimal digit bytes of n (most significant first), as produced by the
Rust Display formatting of an unsigned integer.  The fuel argument makes
the division recursion structural; it is always sufficient. -/
def dec_digits_aux : Nat → Nat → List Nat
  | 0, _ => []
  | fuel + 1, n => if n < 10 then [48 + n] else dec_digits_aux fuel (n / 10) ++ [48 + n % 10]

/-- Decimal digit bytes of n, most significant first. -/
def dec_digits (n : Nat) : List Nat :=
  dec_digits_aux (n + 1) n

/-- Zero-padded decimal label as produced by the Rust formats
"@{:06}" and "@{:>06}": the at-sign byte followed by the decimal digits
of n, left-padded with zero digits to at least six. -/
def fmt_label (n : Nat) : List Nat :=
  64 :: (List.replicate (6 - (dec_digits n).length) 48 ++ dec_digits n)

/-- Label transformation applied by CodeSection::dump when it meets a
labelreset instruction (opcode 0xf0): take the string value of the sole
operand; if it starts with the at-sign byte, insert the two bytes "00"
after it (insert_str at byte position 1); then truncate to the first 7
bytes. -/
def label_reset (s : List Nat) : List Nat :=
  let l := if s.take 1 = [64] then s.take 1 ++ [48, 48] ++ s.drop 1 else s
  l.take 7

/-- Label column of CodeSection::dump in src/ksm_reader/sections.rs,
restricted to the label state:  each instruction displays the current
label, except that a labelreset instruction displays a blank (none);
afterwards a labelreset replaces the label with label_reset applied to
its operand's string value without advancing the instruction counter,
while any other instruction advances the counter and sets the label to
the formatted next index.  args gives the argument-section lookup used
by get_argument(...).get_value(); a labelreset whose operand is missing
(unwrap) or is not a string (unreachable!) panics, modelled as none. -/
def label_column (args : Nat → Value) :
    List Instr → Nat → List Nat → Option (List (Option (List Nat)))
  | [], _, _ => some []
  | i :: rest, instruction_index, label =>
    if i.opcode = 0xf0 then
      match i.operands with
      | [] => none
      | op :: _ =>
        match args op with
        | Value.String s =>
          match label_column args rest instruction_index (label_reset s) with
          | none => none
          | some tail => some (none :: tail)
        | _ => none
    else
      match label_column args rest (instruction_index + 1)
          (fmt_label (instruction_index + 1)) with
      | none => none
      | some tail => some (some label :: tail)

/-- Label column of CodeSection::dump for a whole section: the initial
label is the formatted global instruction index (1 for the first
section). -/
def code_section_labels (args : Nat → Value) (instructions : List Instr)
    (global_instruction_index : Nat) : Option (List (Option (List Nat))) :=
  label_column args instructions global_instruction_index
    (fmt_label global_instruction_index)

/-- Line-number gutter state computation of CodeSection::dump in
src/ksm_reader/sections.rs (the match on addr at lines 235-260), for the
instruction at the given index of the section, once debug_section.find
has returned the covering range (range_start, range_end).  The inner
lookup of the instruction at index + 1 is followed by .unwrap() in the
Rust code; a failed lookup is a panic, modelled as none. -/
def line_number_state (instructions : List Instr) (index : Nat)
    (addr range_start range_end : Nat) : Option Nat :=
  match instructions[index]? with
  | none => none
  | some instruction =>
    let operands_length := instruction.size - 1
    let middle_range := (range_end - range_start) / 2 + range_start
    if addr = range_start ∧ range_start + operands_length = range_end then
      some 3
    else if addr = range_start then
      match instructions[index + 1]? with
      | none => none
      | some next_instruction =>
        if addr + operands_length + next_instruction.size = range_end then some 5
        else some 0
    else if addr + operands_length = range_end then some 4
    else if middle_range ≥ addr ∧ middle_range ≤ addr + operands_length then some 2
    else if addr + operands_length < range_end ∧ addr > range_start then some 1
    else some 6

/-- Translation of enum Argument in src/argument/mod.rs (the legacy
lineage used by src/lib.rs).  Strings are kept as the list of byte
values pushed as chars by read_string; float payloads are raw
little-endian bit patterns since no claim depends on float semantics. -/
inductive Argument where
  | NULL
  | Boolean (b : Bool)
  | Byte (v : Int)
  | Int16 (v : Int)
  | Int32 (v : Int)
  | Float (bits : Nat)
  | Double (bits : Nat)
  | String (chars : List Nat)
  | ArgMarker
  | ScalarIntValue (v : Int)
  | ScalarDoubleValue (bits : Nat)
  | BooleanValue (b : Bool)
  | StringValue (chars : List Nat)
deriving DecidableEq, Repr

/-- Interpretation of a byte as an i8, as in the Rust cast byte as i8. -/
def i8_of_byte (b : Nat) : Int :=
  if b < 128 then (b : Int) else (b : Int) - 256

/-- Interpretation of four little-endian bytes as an i32, as in
i32::from_le_bytes. -/
def i32_from_le_bytes (b0 b1 b2 b3 : Nat) : Int :=
  if b0 + 256 * b1 + 65536 * b2 + 16777216 * b3 < 2147483648 then
    ((b0 + 256 * b1 + 65536 * b2 + 16777216 * b3 : Nat) : Int)
  else
    ((b0 + 256 * b1 + 65536 * b2 + 16777216 * b3 : Nat) : Int) - 4294967296

/-- Translation of argument::read_boolean: one byte, nonzero means true. -/
def read_boolean : List Nat → Option (Argument × List Nat)
  | b :: rest => some (.Boolean (b != 0), rest)
  | [] => none

/-- Translation of argument::read_boolean_value. -/
def read_boolean_value : List Nat → Option (Argument × List Nat)
  | b :: rest => some (.BooleanValue (b != 0), rest)
  | [] => none

/-- Translation of argument::read_byte: one byte as i8. -/
def read_byte : List Nat → Option (Argument × List Nat)
  | b :: rest => some (.Byte (i8_of_byte b), rest)
  | [] => none

/-- Translation of argument::read_int16: two little-endian bytes as i16. -/
def read_int16_arg : List Nat → Option (Argument × List Nat)
  | b0 :: b1 :: rest => some (.Int16 (KSMFileReader.i16_from_le_bytes b0 b1), rest)
  | _ => none

/-- Translation of argument::read_int32: four little-endian bytes as i32. -/
def read_int32_arg : List Nat → Option (Argument × List Nat)
  | b0 :: b1 :: b2 :: b3 :: rest => some (.Int32 (i32_from_le_bytes b0 b1 b2 b3), rest)
  | _ => none

/-- Translation of argument::read_scalar_int_value. -/
def read_scalar_int_value : List Nat → Option (Argument × List Nat)
  | b0 :: b1 :: b2 :: b3 :: rest =>
    some (.ScalarIntValue (i32_from_le_bytes b0 b1 b2 b3), rest)
  | _ => none

/-- Translation of argument::read_float: four bytes, kept as the
little-endian u32 bit pattern of the f32. -/
def read_float : List Nat → Option (Argument × List Nat)
  | b0 :: b1 :: b2 :: b3 :: rest =>
    some (.Float (b0 + 256 * b1 + 65536 * b2 + 16777216 * b3), rest)
  | _ => none

/-- Translation of argument::read_double: eight bytes, kept as the
little-endian u64 bit pattern of the f64. -/
def read_double : List Nat → Option (Argument × List Nat)
  | b0 :: b1 :: b2 :: b3 :: b4 :: b5 :: b6 :: b7 :: rest =>
    some (.Double (b0 + 256 * b1 + 65536 * b2 + 16777216 * b3 +
      4294967296 * b4 + 1099511627776 * b5 + 281474976710656 * b6 +
      72057594037927936 * b7), rest)
  | _ => none

/-- Translation of argument::read_scalar_double_value. -/
def read_scalar_double_value : List Nat → Option (Argument × List Nat)
  | b0 :: b1 :: b2 :: b3 :: b4 :: b5 :: b6 :: b7 :: rest =>
    some (.ScalarDoubleValue (b0 + 256 * b1 + 65536 * b2 + 16777216 * b3 +
      4294967296 * b4 + 1099511627776 * b5 + 281474976710656 * b6 +
      72057594037927936 * b7), rest)
  | _ => none

/-- Character-reading loop of argument::read_string: take exactly n bytes. -/
def take_chars (n : Nat) (l : List Nat) : Option (List Nat × List Nat) :=
  match n with
  | 0 => some ([], l)
  | n + 1 =>
    match l with
    | [] => none
    | c :: rest =>
      match take_chars n rest with
      | none => none
      | some (s, l2) => some (c :: s, l2)

/-- Translation of argument::read_string: one length byte, then that many
bytes pushed as characters. -/
def read_string : List Nat → Option (Argument × List Nat)
  | [] => none
  | len :: rest =>
    match take_chars len rest with
    | none => none
    | some (s, l) => some (.String s, l)

/-- Translation of argument::read_string_value: read_string re-tagged. -/
def read_string_value (bytes : List Nat) : Option (Argument × List Nat) :=
  match read_string bytes with
  | some (.String s, l) => some (.StringValue s, l)
  | some _ => none
  | none => none

/-- Final step of argument::read_argument: unwrap the possible argument,
and add the string length to argument_len for String/StringValue values
(the match on possible_argument at the end of the function). -/
def read_argument_finish (possible_argument : Option (Argument × List Nat))
    (argument_len : Int) : Except String ((Argument × Int) × List Nat) :=
  match possible_argument with
  | some (v, rem) =>
    let argument_len : Int :=
      match v with
      | .String s => argument_len + s.length
      | .StringValue s => argument_len + s.length
      | _ => argument_len
    .ok ((v, argument_len), rem)
  | none => .error "Reached EOF before the argument section eneded"

/-- Translation of argument::read_argument in src/argument/mod.rs: read
the type tag byte, dispatch on it with the argument_len assignments of
the source (0 stays for NULL, ArgMarker, String and StringValue), and
finish by adding string lengths.  The returned Int is the argument_len
the caller uses to advance the running pool index. -/
def read_argument (bytes : List Nat) : Except String ((Argument × Int) × List Nat) :=
  match bytes with
  | [] => .error "Reached EOF before the argument section eneded"
  | arg_type :: rest =>
    match arg_type with
    | 0 => read_argument_finish (some (.NULL, rest)) 0
    | 1 => read_argument_finish (read_boolean rest) 1
    | 2 => read_argument_finish (read_byte rest) 1
    | 3 => read_argument_finish (read_int16_arg rest) 2
    | 4 => read_argument_finish (read_int32_arg rest) 4
    | 5 => read_argument_finish (read_float rest) 4
    | 6 => read_argument_finish (read_double rest) 8
    | 7 => read_argument_finish (read_string rest) 0
    | 8 => read_argument_finish (some (.ArgMarker, rest)) 0
    | 9 => read_argument_finish (read_scalar_int_value rest) 4
    | 10 => read_argument_finish (read_scalar_double_value rest) 8
    | 11 => read_argument_finish (read_boolean_value rest) 1
    | 12 => read_argument_finish (read_string_value rest) 0
    | _ =>
      .error "Unrecognized argument type encountered in section. Is the file corrupt or this tool outdated?"

/-- Translation of kerbalobjects::ko::symbols::SymType as used by
src/output/ko.rs. -/
inductive SymType where
  | Func
  | Object
  | Section
  | File
  | NoType
deriving DecidableEq, Repr

/-- Translation of kerbalobjects::ko::symbols::SymBind. -/
inductive SymBind where
  | Local
  | Global
  | Extern
deriving DecidableEq, Repr

/-- Symbol record as consumed by src/output/ko.rs (kerbalobjects KOSymbol):
name index into the symbol string table, value index into the data
section, size, binding, type, owning section index. -/
structure KOSymbol where
  name_idx : Nat
  value_idx : Nat
  size : Nat
  sym_bind : SymBind
  sym_type : SymType
  sh_idx : Nat
deriving DecidableEq, Repr

/-- Translation of kerbalobjects::ko::symbols::OperandIndex. -/
inductive OperandIndex where
  | one
  | two
deriving DecidableEq, Repr

/-- Relocation entry as consumed by src/output/ko.rs (kerbalobjects
ReldEntry): the (section, instruction, operand position) triple plus the
symbol index it redirects to. -/
structure ReldEntry where
  section_index : Nat
  instr_index : Nat
  operand_index : OperandIndex
  symbol_index : Nat
deriving DecidableEq, Repr

/-- View of a KOFile as consumed by the relocation logic of
src/output/ko.rs: the entries of the section named .reld, the .symtab
symbols, and the .symstrtab strings, each absent when the named section
is not found.  The external kerbalobjects table lookups are modelled as
positional list lookups. -/
structure KOFileModel where
  reld_entries : Option (List ReldEntry)
  symtab : Option (List KOSymbol)
  symstrtab : Option (List String)

/-- Translation of KOFileDebug::get_relocated in src/output/ko.rs: scan
every entry of the .reld section; an entry matching the section and
instruction indices sets the flag and symbol index of its operand
position (a later matching entry overwrites an earlier one); absent
.reld section means no relocations. -/
def get_relocated (ko : KOFileModel) (section_index instr_index : Nat) :
    (Bool × Nat) × (Bool × Nat) :=
  match ko.reld_entries with
  | none => ((false, 0), (false, 0))
  | some entries =>
    entries.foldl
      (fun acc e =>
        if e.section_index = section_index ∧ e.instr_index = instr_index then
          match e.operand_index with
          | .one => ((true, e.symbol_index), acc.2)
          | .two => (acc.1, (true, e.symbol_index))
        else acc)
      ((false, 0), (false, 0))

/-- Result of rendering one instruction operand in
KOFileDebug::dump_func_section: a symbol rendered as its angle-bracketed
name (colored by its type), a data-section value rendered through
write_kosvalue, or no output at all (the empty default arm of the
symbol-type match). -/
inductive RenderedOperand where
  | symbol (t : SymType) (name : String)
  | value (v : Value)
  | nothing
deriving DecidableEq, Repr

/-- Translation of the per-operand rendering of
KOFileDebug::dump_func_section in src/output/ko.rs (the same block is
repeated for OneOp and for both TwoOp operands): when the operand's
relocation flag is set, resolve the relocation's symbol index through
.symtab and its name through .symstrtab and render according to the
symbol type, where Func, Section and NoType write the name and every
other type writes nothing; when the flag is clear, look the operand
index up in the data section and render that value. -/
def render_operand (ko : KOFileModel) (data_section : List Value)
    (reloc : Bool × Nat) (op : Nat) : Except String RenderedOperand :=
  if reloc.1 then
    match ko.symtab with
    | none => .error "Instruction requires symbol, but symbol table not found"
    | some symtab =>
      match ko.symstrtab with
      | none => .error "Instruction requires symbol, but symbol string table not found"
      | some symstrtab =>
        match symtab[reloc.2]? with
        | none => .error ("Reld entry symbol index invalid: " ++ toString reloc.2)
        | some sym =>
          match symstrtab[sym.name_idx]? with
          | none => .error ("Symbol has invalid name index: " ++ toString sym.name_idx)
          | some sym_name =>
            match sym.sym_type with
            | .Func => .ok (.symbol .Func sym_name)
            | .Section => .ok (.symbol .Section sym_name)
            | .NoType => .ok (.symbol .NoType sym_name)
            | _ => .ok .nothing
  else
    match data_section[op]? with
    | none => .error ("Instruction data index invalid: " ++ toString op)
    | some value => .ok (.value value)

/-- Flattened byte form of a list of marker pairs: each pair is the byte
37 (percent) followed by an arbitrary second byte.  Used to state how
CodeSection::read_section_type counts repeated markers. -/
def marker_pairs : List Nat → List Nat
  | [] => []
  | x :: tl => 37 :: x :: marker_pairs tl

/-- Encoded byte length as actually reported by read_argument: the payload
bytes only, where the length-prefix byte of a string is not counted. -/
def reported_len : Argument → Int
  | .NULL => 0
  | .Boolean _ => 1
  | .Byte _ => 1
  | .Int16 _ => 2
  | .Int32 _ => 4
  | .Float _ => 4
  | .Double _ => 8
  | .String s => s.length
  | .ArgMarker => 0
  | .ScalarIntValue _ => 4
  | .ScalarDoubleValue _ => 8
  | .BooleanValue _ => 1
  | .StringValue s => s.length

/-- Number of input bytes actually consumed when read_argument decodes a
value: one tag byte plus the payload, where a string payload also carries
its one length-prefix byte. -/
def consumed_len : Argument → Nat
  | .NULL => 1
  | .Boolean _ => 2
  | .Byte _ => 2
  | .Int16 _ => 3
  | .Int32 _ => 5
  | .Float _ => 5
  | .Double _ => 9
  | .String s => 2 + s.length
  | .ArgMarker => 1
  | .ScalarIntValue _ => 5
  | .ScalarDoubleValue _ => 9
  | .BooleanValue _ => 2
  | .StringValue s => 2 + s.length

/-! Helper lemmas about the byte-reader primitives. -/

theorem next_ok_spec {r : KSMFileReader} {b : Nat} {r1 : KSMFileReader}
    (h : r.next = .ok (b, r1)) :
    r.contents[r.current_index]? = some b ∧
    r1 = { r with current_index := r.current_index + 1 } := by
  unfold KSMFileReader.next at h
  split at h
  · rename_i hb
    injection h with h1
    injection h1 with hb1 hr1
    subst hb1
    exact ⟨hb, hr1.symm⟩
  · exact absurd h (by simp)

theorem read_uint16_be_ok_spec {r : KSMFileReader} {v : Nat} {r1 : KSMFileReader}
    (h : r.read_uint16_be = .ok (v, r1)) :
    r1 = { r with current_index := r.current_index + 2 } := by
  unfold KSMFileReader.read_uint16_be at h
  split at h
  · exact absurd h (by simp)
  · rename_i b0 r0 h0
    split at h
    · exact absurd h (by simp)
    · rename_i b1 rb h1
      injection h with h2
      injection h2 with hv hr
      obtain ⟨-, hb⟩ := next_ok_spec h0
      obtain ⟨-, hc⟩ := next_ok_spec h1
      subst hb hc
      exact hr.symm

theorem read_uint32_be_ok_spec {r : KSMFileReader} {v : Nat} {r1 : KSMFileReader}
    (h : r.read_uint32_be = .ok (v, r1)) :
    r1 = { r with current_index := r.current_index + 4 } := by
  unfold KSMFileReader.read_uint32_be at h
  split at h
  · exact absurd h (by simp)
  · rename_i hi r0 h0
    split at h
    · exact absurd h (by simp)
    · rename_i lo rb h1
      injection h with h2
      injection h2 with hv hr
      have hb := read_uint16_be_ok_spec h0
      have hc := read_uint16_be_ok_spec h1
      subst hb hc
      exact hr.symm

theorem read_bytes_into_u32_ok_spec {r : KSMFileReader} {w v : Nat} {r1 : KSMFileReader}
    (hw : 1 ≤ w) (hw4 : w ≤ 4) (h : r.read_bytes_into_u32 w = .ok (v, r1)) :
    r1 = { r with current_index := r.current_index + w } := by
  interval_cases w
  · exact (next_ok_spec h).2
  · exact read_uint16_be_ok_spec h
  · have h3 : (match r.read_uint16_be with
        | Except.error e => Except.error e
        | Except.ok (hi, r1) =>
          match r1.next with
          | Except.error e => Except.error e
          | Except.ok (b, r2) => Except.ok (hi * 65536 + b, r2)) =
        Except.ok (v, r1) := h
    clear h
    split at h3
    · exact absurd h3 (by simp)
    · rename_i hi r0 h0
      split at h3
      · exact absurd h3 (by simp)
      · rename_i b rb h1
        injection h3 with h2
        injection h2 with hv hr
        have hb := read_uint16_be_ok_spec h0
        have hc := (next_ok_spec h1).2
        subst hb hc
        exact hr.symm
  · exact read_uint32_be_ok_spec h

set_option maxRecDepth 4000

/-- C1: the arity lookup is total with values in 0, 1, 2, 255 (third
conjunct), and for the unknown opcode byte 0x00 it returns the sentinel
255 (first conjunct); contrary to the claim, Instr::read does not fail on
an unknown opcode: it feeds the sentinel straight into its operand loop,
so on the byte 0x00 followed by 255 one-byte operands it succeeds and
returns an instruction carrying 255 operands (second conjunct).  The
parallel legacy decoder opcode::read_instr rejects its -1 sentinel, which
marks the unchecked 255 here as a slip. -/
theorem C1_unknown_opcode_arity255 :
    Instr.opcode_num_operands 0 = 255 ∧
    Instr.read ⟨0 :: List.replicate 255 0, 0, 1, 0⟩ =
      .ok (⟨0, 1, 255, List.replicate 255 0⟩, ⟨0 :: List.replicate 255 0, 256, 1, 0⟩) ∧
    (∀ opcode : Nat,
      Instr.opcode_num_operands opcode = 0 ∨ Instr.opcode_num_operands opcode = 1 ∨
      Instr.opcode_num_operands opcode = 2 ∨ Instr.opcode_num_operands opcode = 255) := by
  refine ⟨rfl, by rfl, ?_⟩
  intro opcode
  unfold Instr.opcode_num_operands
  split <;> simp

theorem take_chars_spec {n : Nat} {l s rest : List Nat}
    (h : take_chars n l = some (s, rest)) :
    s.length = n ∧ l.length = n + rest.length := by
  induction n generalizing l s rest with
  | zero =>
    unfold take_chars at h
    injection h with h1
    injection h1 with hs hrest
    subst hs hrest
    simp
  | succ n ih =>
    unfold take_chars at h
    split at h
    · exact absurd h (by simp)
    · rename_i c t
      split at h
      · exact absurd h (by simp)
      · rename_i s2 l2 heq
        injection h with h1
        injection h1 with hs hrest
        obtain ⟨h1, h2⟩ := ih heq
        subst hs hrest
        constructor
        · simp [h1]
        · simp only [List.length_cons, h2]
          omega

theorem read_boolean_spec {l : List Nat} {v : Argument} {rem : List Nat}
    (h : read_boolean l = some (v, rem)) :
    (∃ b, v = .Boolean b) ∧ l.length = 1 + rem.length := by
  unfold read_boolean at h
  match l, h with
  | b :: t, h =>
    injection h with h1
    injection h1 with hv hrem
    subst hrem
    exact ⟨⟨_, hv.symm⟩, by simp only [List.length_cons]; omega⟩

theorem read_boolean_value_spec {l : List Nat} {v : Argument} {rem : List Nat}
    (h : read_boolean_value l = some (v, rem)) :
    (∃ b, v = .BooleanValue b) ∧ l.length = 1 + rem.length := by
  unfold read_boolean_value at h
  match l, h with
  | b :: t, h =>
    injection h with h1
    injection h1 with hv hrem
    subst hrem
    exact ⟨⟨_, hv.symm⟩, by simp only [List.length_cons]; omega⟩

theorem read_byte_spec {l : List Nat} {v : Argument} {rem : List Nat}
    (h : read_byte l = some (v, rem)) :
    (∃ x, v = .Byte x) ∧ l.length = 1 + rem.length := by
  unfold read_byte at h
  match l, h with
  | b :: t, h =>
    injection h with h1
    injection h1 with hv hrem
    subst hrem
    exact ⟨⟨_, hv.symm⟩, by simp only [List.length_cons]; omega⟩

theorem read_int16_arg_spec {l : List Nat} {v : Argument} {rem : List Nat}
    (h : read_int16_arg l = some (v, rem)) :
    (∃ x, v = .Int16 x) ∧ l.length = 2 + rem.length := by
  unfold read_int16_arg at h
  split at h
  · injection h with h1
    injection h1 with hv hrem
    subst hrem
    exact ⟨⟨_, hv.symm⟩, by simp only [List.length_cons]; omega⟩
  · exact absurd h (by simp)

theorem read_int32_arg_spec {l : List Nat} {v : Argument} {rem : List Nat}
    (h : read_int32_arg l = some (v, rem)) :
    (∃ x, v = .Int32 x) ∧ l.length = 4 + rem.length := by
  unfold read_int32_arg at h
  split at h
  · injection h with h1
    injection h1 with hv hrem
    subst hrem
    exact ⟨⟨_, hv.symm⟩, by simp only [List.length_cons]; omega⟩
  · exact absurd h (by simp)

theorem read_scalar_int_value_spec {l : List Nat} {v : Argument} {rem : List Nat}
    (h : read_scalar_int_value l = some (v, rem)) :
    (∃ x, v = .ScalarIntValue x) ∧ l.length = 4 + rem.length := by
  unfold read_scalar_int_value at h
  split at h
  · injection h with h1
    injection h1 with hv hrem
    subst hrem
    exact ⟨⟨_, hv.symm⟩, by simp only [List.length_cons]; omega⟩
  · exact absurd h (by simp)

theorem read_float_spec {l : List Nat} {v : Argument} {rem : List Nat}
    (h : read_float l = some (v, rem)) :
    (∃ x, v = .Float x) ∧ l.length = 4 + rem.length := by
  unfold read_float at h
  split at h
  · injection h with h1
    injection h1 with hv hrem
    subst hrem
    exact ⟨⟨_, hv.symm⟩, by simp only [List.length_cons]; omega⟩
  · exact absurd h (by simp)

theorem read_double_spec {l : List Nat} {v : Argument} {rem : List Nat}
    (h : read_double l = some (v, rem)) :
    (∃ x, v = .Double x) ∧ l.length = 8 + rem.length := by
  unfold read_double at h
  split at h
  · injection h with h1
    injection h1 with hv hrem
    subst hrem
    exact ⟨⟨_, hv.symm⟩, by simp only [List.length_cons]; omega⟩
  · exact absurd h (by simp)

theorem read_scalar_double_value_spec {l : List Nat} {v : Argument} {rem : List Nat}
    (h : read_scalar_double_value l = some (v, rem)) :
    (∃ x, v = .ScalarDoubleValue x) ∧ l.length = 8 + rem.length := by
  unfold read_scalar_double_value at h
  split at h
  · injection h with h1
    injection h1 with hv hrem
    subst hrem
    exact ⟨⟨_, hv.symm⟩, by simp only [List.length_cons]; omega⟩
  · exact absurd h (by simp)

theorem read_string_spec {l : List Nat} {v : Argument} {rem : List Nat}
    (h : read_string l = some (v, rem)) :
    ∃ s, v = .String s ∧ l.length = 1 + s.length + rem.length := by
  unfold read_string at h
  split at h
  · exact absurd h (by simp)
  · rename_i len t
    split at h
    · exact absurd h (by simp)
    · rename_i s l2 heq
      injection h with h1
      injection h1 with hv hrem
      subst hrem
      obtain ⟨h1, h2⟩ := take_chars_spec heq
      refine ⟨s, hv.symm, ?_⟩
      simp only [List.length_cons, h2, h1]
      omega

theorem read_string_value_spec {l : List Nat} {v : Argument} {rem : List Nat}
    (h : read_string_value l = some (v, rem)) :
    ∃ s, v = .StringValue s ∧ l.length = 1 + s.length + rem.length := by
  unfold read_string_value at h
  split at h
  · rename_i s l2 heq
    injection h with h1
    injection h1 with hv hrem
    subst hrem
    obtain ⟨s2, hs2, hlen⟩ := read_string_spec heq
    injection hs2 with hs2
    subst hs2
    exact ⟨s, hv.symm, hlen⟩
  · exact absurd h (by simp)
  · exact absurd h (by simp)

/-- C2 counterexample: on the one-byte input consisting of the NULL tag,
read_argument succeeds and reports an encoded length of 0, although one
byte (the tag) was consumed; the claimed length 1 tag byte + 0 payload
differs. -/
theorem C2_counterexample :
    read_argument [0] = .ok ((Argument.NULL, 0), []) ∧ (0 : Int) ≠ 1 + 0 :=
  ⟨rfl, by decide⟩

/-- C2 amended: whenever read_argument succeeds, the reported length is the
payload size only (0 for Null/ArgMarker, 1 for Bool/Byte/BoolValue, 2 for
Int16, 4 for Int32/Float32/ScalarInt, 8 for Float64/ScalarDouble, and the
bare string length for String/StringValue), while the bytes actually
consumed are 1 tag byte more than that, plus one further length-prefix
byte for String/StringValue. -/
theorem C2_encoded_length (bytes rest : List Nat) (a : Argument) (len : Int)
    (h : read_argument bytes = .ok ((a, len), rest)) :
    len = reported_len a ∧ bytes.length = consumed_len a + rest.length := by
  unfold read_argument at h
  split at h
  · exact absurd h (by simp)
  · rename_i arg_type t
    split at h
    · -- tag 0: NULL
      simp only [read_argument_finish, Except.ok.injEq, Prod.mk.injEq] at h
      obtain ⟨⟨h4, h5⟩, h3⟩ := h
      subst h4 h5 h3
      refine ⟨by simp [reported_len], ?_⟩
      simp only [List.length_cons, consumed_len]
      omega
    · -- tag 1: Boolean
      rcases hr : read_boolean t with - | ⟨v, rem⟩
      · rw [hr] at h; exact absurd h (by simp [read_argument_finish])
      · rw [hr] at h
        obtain ⟨⟨x, hv⟩, hlen⟩ := read_boolean_spec hr
        subst hv
        simp only [read_argument_finish, Except.ok.injEq, Prod.mk.injEq] at h
        obtain ⟨⟨h4, h5⟩, h3⟩ := h
        subst h4 h5 h3
        refine ⟨by simp [reported_len], ?_⟩
        simp only [List.length_cons, consumed_len]
        omega
    · -- tag 2: Byte
      rcases hr : read_byte t with - | ⟨v, rem⟩
      · rw [hr] at h; exact absurd h (by simp [read_argument_finish])
      · rw [hr] at h
        obtain ⟨⟨x, hv⟩, hlen⟩ := read_byte_spec hr
        subst hv
        simp only [read_argument_finish, Except.ok.injEq, Prod.mk.injEq] at h
        obtain ⟨⟨h4, h5⟩, h3⟩ := h
        subst h4 h5 h3
        refine ⟨by simp [reported_len], ?_⟩
        simp only [List.length_cons, consumed_len]
        omega
    · -- tag 3: Int16
      rcases hr : read_int16_arg t with - | ⟨v, rem⟩
      · rw [hr] at h; exact absurd h (by simp [read_argument_finish])
      · rw [hr] at h
        obtain ⟨⟨x, hv⟩, hlen⟩ := read_int16_arg_spec hr
        subst hv
        simp only [read_argument_finish, Except.ok.injEq, Prod.mk.injEq] at h
        obtain ⟨⟨h4, h5⟩, h3⟩ := h
        subst h4 h5 h3
        refine ⟨by simp [reported_len], ?_⟩
        simp only [List.length_cons, consumed_len]
        omega
    · -- tag 4: Int32
      rcases hr : read_int32_arg t with - | ⟨v, rem⟩
      · rw [hr] at h; exact absurd h (by simp [read_argument_finish])
      · rw [hr] at h
        obtain ⟨⟨x, hv⟩, hlen⟩ := read_int32_arg_spec hr
        subst hv
        simp only [read_argument_finish, Except.ok.injEq, Prod.mk.injEq] at h
        obtain ⟨⟨h4, h5⟩, h3⟩ := h
        subst h4 h5 h3
        refine ⟨by simp [reported_len], ?_⟩
        simp only [List.length_cons, consumed_len]
        omega
    · -- tag 5: Float
      rcases hr : read_float t with - | ⟨v, rem⟩
      · rw [hr] at h; exact absurd h (by simp [read_argument_finish])
      · rw [hr] at h
        obtain ⟨⟨x, hv⟩, hlen⟩ := read_float_spec hr
        subst hv
        simp only [read_argument_finish, Except.ok.injEq, Prod.mk.injEq] at h
        obtain ⟨⟨h4, h5⟩, h3⟩ := h
        subst h4 h5 h3
        refine ⟨by simp [reported_len], ?_⟩
        simp only [List.length_cons, consumed_len]
        omega
    · -- tag 6: Double
      rcases hr : read_double t with - | ⟨v, rem⟩
      · rw [hr] at h; exact absurd h (by simp [read_argument_finish])
      · rw [hr] at h
        obtain ⟨⟨x, hv⟩, hlen⟩ := read_double_spec hr
        subst hv
        simp only [read_argument_finish, Except.ok.injEq, Prod.mk.injEq] at h
        obtain ⟨⟨h4, h5⟩, h3⟩ := h
        subst h4 h5 h3
        refine ⟨by simp [reported_len], ?_⟩
        simp only [List.length_cons, consumed_len]
        omega
    · -- tag 7: String
      rcases hr : read_string t with - | ⟨v, rem⟩
      · rw [hr] at h; exact absurd h (by simp [read_argument_finish])
      · rw [hr] at h
        obtain ⟨s, hv, hlen⟩ := read_string_spec hr
        subst hv
        simp only [read_argument_finish, Except.ok.injEq, Prod.mk.injEq] at h
        obtain ⟨⟨h4, h5⟩, h3⟩ := h
        subst h4 h3
        refine ⟨?_, ?_⟩
        · simp only [reported_len]
          omega
        · simp only [List.length_cons, consumed_len]
          omega
    · -- tag 8: ArgMarker
      simp only [read_argument_finish, Except.ok.injEq, Prod.mk.injEq] at h
      obtain ⟨⟨h4, h5⟩, h3⟩ := h
      subst h4 h5 h3
      refine ⟨by simp [reported_len], ?_⟩
      simp only [List.length_cons, consumed_len]
      omega
    · -- tag 9: ScalarInt
      rcases hr : read_scalar_int_value t with - | ⟨v, rem⟩
      · rw [hr] at h; exact absurd h (by simp [read_argument_finish])
      · rw [hr] at h
        obtain ⟨⟨x, hv⟩, hlen⟩ := read_scalar_int_value_spec hr
        subst hv
        simp only [read_argument_finish, Except.ok.injEq, Prod.mk.injEq] at h
        obtain ⟨⟨h4, h5⟩, h3⟩ := h
        subst h4 h5 h3
        refine ⟨by simp [reported_len], ?_⟩
        simp only [List.length_cons, consumed_len]
        omega
    · -- tag 10: ScalarDouble
      rcases hr : read_scalar_double_value t with - | ⟨v, rem⟩
      · rw [hr] at h; exact absurd h (by simp [read_argument_finish])
      · rw [hr] at h
        obtain ⟨⟨x, hv⟩, hlen⟩ := read_scalar_double_value_spec hr
        subst hv
        simp only [read_argument_finish, Except.ok.injEq, Prod.mk.injEq] at h
        obtain ⟨⟨h4, h5⟩, h3⟩ := h
        subst h4 h5 h3
        refine ⟨by simp [reported_len], ?_⟩
        simp only [List.length_cons, consumed_len]
        omega
    · -- tag 11: BooleanValue
      rcases hr : read_boolean_value t with - | ⟨v, rem⟩
      · rw [hr] at h; exact absurd h (by simp [read_argument_finish])
      · rw [hr] at h
        obtain ⟨⟨x, hv⟩, hlen⟩ := read_boolean_value_spec hr
        subst hv
        simp only [read_argument_finish, Except.ok.injEq, Prod.mk.injEq] at h
        obtain ⟨⟨h4, h5⟩, h3⟩ := h
        subst h4 h5 h3
        refine ⟨by simp [reported_len], ?_⟩
        simp only [List.length_cons, consumed_len]
        omega
    · -- tag 12: StringValue
      rcases hr : read_string_value t with - | ⟨v, rem⟩
      · rw [hr] at h; exact absurd h (by simp [read_argument_finish])
      · rw [hr] at h
        obtain ⟨s, hv, hlen⟩ := read_string_value_spec hr
        subst hv
        simp only [read_argument_finish, Except.ok.injEq, Prod.mk.injEq] at h
        obtain ⟨⟨h4, h5⟩, h3⟩ := h
        subst h4 h3
        refine ⟨?_, ?_⟩
        · simp only [reported_len]
          omega
        · simp only [List.length_cons, consumed_len]
          omega
    · -- unrecognized tag
      exact absurd h (by simp)

/-- C2 witness: the amended statement evaluated on the concrete input
tag 7, length 2, bytes 65 66 and one trailing byte: the string "AB" is
decoded with reported length 2 and 4 bytes consumed. -/
theorem C2_encoded_length_witness :
    (2 : Int) = reported_len (Argument.String [65, 66]) ∧
    (5 : Nat) = consumed_len (Argument.String [65, 66]) + 1 :=
  C2_encoded_length [7, 2, 65, 66, 9] [9] (Argument.String [65, 66]) 2 (by rfl)

theorem readInstrsLoop_size (fuel : Nat) :
    ∀ (size0 : Nat) (r : KSMFileReader) (instrs : List Instr) (size2 : Nat)
      (r2 : KSMFileReader),
    readInstrsLoop fuel size0 r = .ok (instrs, size2, r2) →
    size2 = size0 + (instrs.map Instr.size).sum := by
  induction fuel with
  | zero =>
    intro size0 r instrs size2 r2 h
    exact absurd h (by simp [readInstrsLoop])
  | succ fuel ih =>
    intro size0 r instrs size2 r2 h
    unfold readInstrsLoop at h
    split at h
    · exact absurd h (by simp)
    · split at h
      · simp only [Except.ok.injEq, Prod.mk.injEq] at h
        obtain ⟨h1, h2, h3⟩ := h
        subst h1 h2
        simp
      · split at h
        · exact absurd h (by simp)
        · rename_i i r1 hread
          split at h
          · exact absurd h (by simp)
          · rename_i rest size3 r3 hrec
            simp only [Except.ok.injEq, Prod.mk.injEq] at h
            obtain ⟨h1, h2, h3⟩ := h
            subst h1 h2
            have hs := ih (size0 + i.size) r1 rest size3 r3 hrec
            simp only [List.map_cons, List.sum_cons, hs]
            omega

/-- C3 counterexample: on a FUNCTION section holding one 1-byte
instruction (marker bytes 37 70, opcode 0x31, trailing marker bytes),
CodeSection::read records size 7 = 6 + 1, not 2 + 1 as the claimed 2-byte
FUNCTION header overhead requires. -/
theorem C3_counterexample :
    CodeSection.read ⟨[37, 70, 49, 37, 73, 37, 77], 0, 1, 0⟩ =
      .ok (⟨.FUNCTION, [⟨49, 1, 0, []⟩], 7, 1⟩, ⟨[37, 70, 49, 37, 73, 37, 77], 7, 1, 0⟩) ∧
    (7 : Nat) ≠ 2 + ((([⟨49, 1, 0, []⟩] : List Instr)).map Instr.size).sum :=
  ⟨rfl, by decide⟩

/-- C3 amended: for every successfully parsed code section, the recorded
section size equals the sum of the encoded instruction sizes plus a
constant 6-byte overhead, for every section type (the Rust code starts
the size accumulator at 6 regardless of the FUNCTION / INITIALIZATION /
MAIN type; only the displayed dump offsets use 2/4/6). -/
theorem C3_section_size (r r2 : KSMFileReader) (sec : CodeSection)
    (h : CodeSection.read r = .ok (sec, r2)) :
    sec.size = 6 + (sec.instructions.map Instr.size).sum := by
  unfold CodeSection.read at h
  split at h
  · exact absurd h (by simp)
  · rename_i st r1 hst
    split at h
    · exact absurd h (by simp)
    · rename_i instrs size r3 hloop
      have hs := readInstrsLoop_size _ _ _ _ _ _ hloop
      split at h
      · cases hp : r3.pop 4 with
        | error e => rw [hp] at h; exact absurd h (by simp)
        | ok r4 =>
          rw [hp] at h
          simp only [Except.ok.injEq, Prod.mk.injEq] at h
          obtain ⟨h1, h2⟩ := h
          subst h1
          simp [CodeSection.new, hs]
      · cases hp : r3.pop 2 with
        | error e => rw [hp] at h; exact absurd h (by simp)
        | ok r4 =>
          rw [hp] at h
          simp only [Except.ok.injEq, Prod.mk.injEq] at h
          obtain ⟨h1, h2⟩ := h
          subst h1
          simp [CodeSection.new, hs]
      · simp only [Except.ok.injEq, Prod.mk.injEq] at h
        obtain ⟨h1, h2⟩ := h
        subst h1
        simp [CodeSection.new, hs]

/-- C3 witness: the amended statement evaluated on the concrete FUNCTION
section of the counterexample. -/
theorem C3_section_size_witness :
    (⟨SectionType.FUNCTION, [⟨49, 1, 0, []⟩], 7, 1⟩ : CodeSection).size =
      6 + ((([⟨49, 1, 0, []⟩] : List Instr)).map Instr.size).sum :=
  C3_section_size ⟨[37, 70, 49, 37, 73, 37, 77], 0, 1, 0⟩
    ⟨[37, 70, 49, 37, 73, 37, 77], 7, 1, 0⟩
    ⟨.FUNCTION, [⟨49, 1, 0, []⟩], 7, 1⟩ (by rfl)

theorem label_column_no_reset (args : Nat → Value) (instrs : List Instr) :
    ∀ idx : Nat, (∀ i ∈ instrs, i.opcode ≠ 0xf0) →
    label_column args instrs idx (fmt_label idx) =
      some ((List.range' idx instrs.length).map fun k => some (fmt_label k)) := by
  induction instrs with
  | nil => intro idx h; simp [label_column]
  | cons i rest ih =>
    intro idx h
    have hi : i.opcode ≠ 0xf0 := h i (by simp)
    have hrest : ∀ j ∈ rest, j.opcode ≠ 0xf0 := fun j hj => h j (by simp [hj])
    unfold label_column
    rw [if_neg hi, ih (idx + 1) hrest]
    simp [List.range'_succ]

/-- C4 counterexample: a labelreset instruction whose operand string is
"@13" makes the immediately following instruction display the label
"@0013" (insert "00" at position 1, then truncate to 7), not "@000013"
as the claim's example states. -/
theorem C4_counterexample :
    code_section_labels (fun _ => Value.String (str_bytes "@13"))
      [⟨0xf0, 1, 1, [0]⟩, ⟨0x33, 1, 0, []⟩] 1 =
      some [none, some (str_bytes "@0013")] ∧
    str_bytes "@0013" ≠ str_bytes "@000013" :=
  ⟨by decide, by decide⟩

/-- C4 amended: in a code section dumped with global instruction index 1,
a run of N non-labelreset instructions is labeled with the zero-padded
labels of 1 through N in order (first conjunct); a labelreset instruction
itself displays no label and instead the string value of its sole
operand, transformed by label_reset (insert "00" after a leading at sign,
then truncate to 7 bytes), becomes the label of the immediately
following instruction (second conjunct); the operand text "@13" yields
"@0013", and "@0013" would yield "@000013" (last conjuncts). -/
theorem C4_label_synthesis :
    (∀ (args : Nat → Value) (instrs : List Instr),
      (∀ i ∈ instrs, i.opcode ≠ 0xf0) →
      code_section_labels args instrs 1 =
        some ((List.range' 1 instrs.length).map fun k => some (fmt_label k)))
    ∧ (∀ (args : Nat → Value) (op : Nat) (s : List Nat) (w n : Nat)
        (ops : List Nat) (i2 : Instr),
      args op = Value.String s → i2.opcode ≠ 0xf0 →
      code_section_labels args [⟨0xf0, w, n, op :: ops⟩, i2] 1 =
        some [none, some (label_reset s)])
    ∧ label_reset (str_bytes "@13") = str_bytes "@0013"
    ∧ label_reset (str_bytes "@0013") = str_bytes "@000013" := by
  refine ⟨?_, ?_, by decide, by decide⟩
  · intro args instrs h
    exact label_column_no_reset args instrs 1 h
  · intro args op s w n ops i2 hop h2
    simp [code_section_labels, label_column, hop, h2]

/-- C4 witness: the amended statement evaluated on concrete sections: two
plain instructions get labels 1 and 2, and a labelreset with operand
"@13" labels its successor "@0013". -/
theorem C4_label_synthesis_witness :
    code_section_labels (fun _ => Value.NULL) [⟨0x33, 1, 0, []⟩, ⟨0x31, 1, 0, []⟩] 1 =
      some ((List.range' 1 2).map fun k => some (fmt_label k)) ∧
    code_section_labels (fun _ => Value.String (str_bytes "@13"))
      [⟨0xf0, 1, 1, [0]⟩, ⟨0x33, 1, 0, []⟩] 1 =
      some [none, some (label_reset (str_bytes "@13"))] :=
  ⟨C4_label_synthesis.1 (fun _ => Value.NULL) [⟨0x33, 1, 0, []⟩, ⟨0x31, 1, 0, []⟩]
      (by decide),
    (C4_label_synthesis.2.1) (fun _ => Value.String (str_bytes "@13")) 0
      (str_bytes "@13") 1 1 [] ⟨0x33, 1, 0, []⟩ rfl (by decide)⟩

theorem get_relocated_fold (section_index instr_index : Nat) (entries : List ReldEntry) :
    ∀ acc : (Bool × Nat) × (Bool × Nat),
    ((entries.foldl
      (fun acc e =>
        if e.section_index = section_index ∧ e.instr_index = instr_index then
          match e.operand_index with
          | .one => ((true, e.symbol_index), acc.2)
          | .two => (acc.1, (true, e.symbol_index))
        else acc)
      acc).1.1 =
      (acc.1.1 || entries.any fun e =>
        decide (e.section_index = section_index ∧ e.instr_index = instr_index ∧
          e.operand_index = .one)))
    ∧ ((entries.foldl
      (fun acc e =>
        if e.section_index = section_index ∧ e.instr_index = instr_index then
          match e.operand_index with
          | .one => ((true, e.symbol_index), acc.2)
          | .two => (acc.1, (true, e.symbol_index))
        else acc)
      acc).2.1 =
      (acc.2.1 || entries.any fun e =>
        decide (e.section_index = section_index ∧ e.instr_index = instr_index ∧
          e.operand_index = .two))) := by
  induction entries with
  | nil => intro acc; simp
  | cons e tl ih =>
    intro acc
    simp only [List.foldl_cons, List.any_cons]
    by_cases hc : e.section_index = section_index ∧ e.instr_index = instr_index
    · cases hoi : e.operand_index with
      | one =>
        rw [if_pos hc]
        obtain ⟨ih1, ih2⟩ := ih ((true, e.symbol_index), acc.2)
        simp [ih1, ih2, hc, hoi]
      | two =>
        rw [if_pos hc]
        obtain ⟨ih1, ih2⟩ := ih (acc.1, (true, e.symbol_index))
        simp [ih1, ih2, hc, hoi]
    · rw [if_neg hc]
      obtain ⟨ih1, ih2⟩ := ih acc
      have hfalse : ∀ oi : OperandIndex, ¬(e.section_index = section_index ∧
          e.instr_index = instr_index ∧ e.operand_index = oi) :=
        fun oi hx => hc ⟨hx.1, hx.2.1⟩
      simp [ih1, ih2, hfalse]

/-- C5: for a KO file with a .reld section, the relocation flag of an
operand position is set exactly when a relocation entry with that
(section, instruction, operand position) triple exists (first two
conjuncts); when the flag is set, the rendered operand is computed from
the symbol table alone — it does not depend on the data section or on
the operand's inline index (middle conjuncts); when no such entry
exists, the operand is rendered by looking its index up in the data
section (last conjuncts). -/
theorem C5_relocation_precedence (ko : KOFileModel) (entries : List ReldEntry)
    (s i : Nat) (hre : ko.reld_entries = some entries) :
    (((get_relocated ko s i).1.1 = true) ↔
      ∃ e ∈ entries, e.section_index = s ∧ e.instr_index = i ∧ e.operand_index = .one)
    ∧ (((get_relocated ko s i).2.1 = true) ↔
      ∃ e ∈ entries, e.section_index = s ∧ e.instr_index = i ∧ e.operand_index = .two)
    ∧ (∀ (d1 d2 : List Value) (op1 op2 : Nat), (get_relocated ko s i).1.1 = true →
      render_operand ko d1 ((get_relocated ko s i).1) op1 =
        render_operand ko d2 ((get_relocated ko s i).1) op2)
    ∧ (∀ (d1 d2 : List Value) (op1 op2 : Nat), (get_relocated ko s i).2.1 = true →
      render_operand ko d1 ((get_relocated ko s i).2) op1 =
        render_operand ko d2 ((get_relocated ko s i).2) op2)
    ∧ (∀ (d : List Value) (op : Nat), (get_relocated ko s i).1.1 = false →
      render_operand ko d ((get_relocated ko s i).1) op =
        match d[op]? with
        | some value => .ok (.value value)
        | none => .error ("Instruction data index invalid: " ++ toString op))
    ∧ (∀ (d : List Value) (op : Nat), (get_relocated ko s i).2.1 = false →
      render_operand ko d ((get_relocated ko s i).2) op =
        match d[op]? with
        | some value => .ok (.value value)
        | none => .error ("Instruction data index invalid: " ++ toString op)) := by
  have hg : get_relocated ko s i = entries.foldl
      (fun acc e =>
        if e.section_index = s ∧ e.instr_index = i then
          match e.operand_index with
          | .one => ((true, e.symbol_index), acc.2)
          | .two => (acc.1, (true, e.symbol_index))
        else acc)
      ((false, 0), (false, 0)) := by
    simp [get_relocated, hre]
  obtain ⟨hf1, hf2⟩ := get_relocated_fold s i entries ((false, 0), (false, 0))
  refine ⟨?_, ?_, ?_, ?_, ?_, ?_⟩
  · rw [hg, hf1]
    simp [List.any_eq_true]
  · rw [hg, hf2]
    simp [List.any_eq_true]
  · intro d1 d2 op1 op2 hflag
    simp [render_operand, hflag]
  · intro d1 d2 op1 op2 hflag
    simp [render_operand, hflag]
  · intro d op hflag
    simp only [render_operand, hflag, Bool.false_eq_true, if_false]
    cases d[op]? <;> rfl
  · intro d op hflag
    simp only [render_operand, hflag, Bool.false_eq_true, if_false]
    cases d[op]? <;> rfl

/-- C5 witness: the precedence statement applied to a concrete KO file
whose single relocation entry covers (section 0, instruction 0, first
operand): the flag is set and the rendering is the same whatever data
section or operand index is supplied. -/
theorem C5_relocation_precedence_witness :
    (get_relocated ⟨some [⟨0, 0, .one, 5⟩], none, none⟩ 0 0).1.1 = true ∧
    render_operand ⟨some [⟨0, 0, .one, 5⟩], none, none⟩ [Value.NULL]
        ((get_relocated ⟨some [⟨0, 0, .one, 5⟩], none, none⟩ 0 0).1) 0 =
      render_operand ⟨some [⟨0, 0, .one, 5⟩], none, none⟩ []
        ((get_relocated ⟨some [⟨0, 0, .one, 5⟩], none, none⟩ 0 0).1) 3 := by
  have h := C5_relocation_precedence ⟨some [⟨0, 0, .one, 5⟩], none, none⟩
    [⟨0, 0, .one, 5⟩] 0 0 rfl
  have hflag := h.1.mpr ⟨⟨0, 0, .one, 5⟩, by simp, rfl, rfl, rfl⟩
  exact ⟨hflag, h.2.2.1 [Value.NULL] [] 0 3 hflag⟩

/-- C6 counterexample: a relocated operand resolving to a NoType symbol
named "x" with value index 1 is rendered as the symbol name, not as the
data-section value at index 1 (first two conjuncts); and a relocated
operand resolving to a File symbol renders as nothing at all — it is
not an error (last two conjuncts). -/
theorem C6_counterexample :
    render_operand ⟨some [], some [⟨0, 1, 0, .Local, .NoType, 0⟩], some ["x"]⟩
        [Value.String (str_bytes "y"), Value.String (str_bytes "z")] (true, 0) 0 =
      .ok (.symbol .NoType "x") ∧
    (Except.ok (RenderedOperand.symbol .NoType "x") : Except String RenderedOperand) ≠
      .ok (.value (Value.String (str_bytes "z"))) ∧
    render_operand ⟨some [], some [⟨0, 0, 0, .Local, .File, 0⟩], some ["x"]⟩
        [Value.String (str_bytes "y")] (true, 0) 0 = .ok .nothing ∧
    ∀ msg : String,
      render_operand ⟨some [], some [⟨0, 0, 0, .Local, .File, 0⟩], some ["x"]⟩
        [Value.String (str_bytes "y")] (true, 0) 0 ≠ .error msg := by
  refine ⟨rfl, by simp, rfl, ?_⟩
  intro msg h
  exact Except.noConfusion h

/-- C6 amended: a relocated operand that resolves to a symbol is rendered
according to the symbol type: Func, Section and NoType symbols are shown
by name only; Object and File symbols produce no operand text at all and
are silently skipped (the empty default arm), with no error raised and
no data-section lookup for any of the five types. -/
theorem C6_symbol_type_rendering (ko : KOFileModel) (symtab : List KOSymbol)
    (symstrtab : List String) (k : Nat) (sym : KOSymbol) (nm : String)
    (d : List Value) (op : Nat)
    (h1 : ko.symtab = some symtab) (h2 : ko.symstrtab = some symstrtab)
    (h3 : symtab[k]? = some sym) (h4 : symstrtab[sym.name_idx]? = some nm) :
    render_operand ko d (true, k) op =
      match sym.sym_type with
      | .Func => .ok (.symbol .Func nm)
      | .Section => .ok (.symbol .Section nm)
      | .NoType => .ok (.symbol .NoType nm)
      | .Object => .ok .nothing
      | .File => .ok .nothing := by
  simp only [render_operand, h1, h2, h3, h4]
  cases sym.sym_type <;> rfl

/-- C6 witness: the amended statement evaluated on a concrete NoType
symbol: the rendering is the bracketed name, not the data value. -/
theorem C6_symbol_type_rendering_witness :
    render_operand ⟨some [], some [⟨0, 1, 0, .Local, .NoType, 0⟩], some ["x"]⟩
        [Value.NULL] (true, 0) 7 = .ok (.symbol .NoType "x") :=
  C6_symbol_type_rendering ⟨some [], some [⟨0, 1, 0, .Local, .NoType, 0⟩], some ["x"]⟩
    [⟨0, 1, 0, .Local, .NoType, 0⟩] ["x"] 0 ⟨0, 1, 0, .Local, .NoType, 0⟩ "x"
    [Value.NULL] 7 rfl rfl rfl rfl

theorem u16_of_i16_le (b0 b1 : Nat) (h0 : b0 < 256) (h1 : b1 < 256) :
    u16_of_int (KSMFileReader.i16_from_le_bytes b0 b1) = b0 + 256 * b1 := by
  unfold u16_of_int KSMFileReader.i16_from_le_bytes
  split <;> omega

theorem read_int16_ok_spec {r : KSMFileReader} {v : Int} {r1 : KSMFileReader}
    (h : r.read_int16 = .ok (v, r1)) :
    (∃ b0 b1, r.contents[r.current_index]? = some b0 ∧
      r.contents[r.current_index + 1]? = some b1 ∧
      v = KSMFileReader.i16_from_le_bytes b0 b1) ∧
    r1 = { r with current_index := r.current_index + 2 } := by
  unfold KSMFileReader.read_int16 at h
  split at h
  · exact absurd h (by simp)
  · rename_i b0 ra h0
    split at h
    · exact absurd h (by simp)
    · rename_i b1 rb h1
      injection h with h2
      injection h2 with hv hr
      obtain ⟨hg0, he0⟩ := next_ok_spec h0
      obtain ⟨hg1, he1⟩ := next_ok_spec h1
      subst he0 he1
      exact ⟨⟨b0, b1, hg0, hg1, hv.symm⟩, hr.symm⟩

theorem readRanges_spec :
    ∀ (n : Nat) (r : KSMFileReader) (l : List (Nat × Nat)) (r2 : KSMFileReader),
    1 ≤ r.debug_range_bytes → r.debug_range_bytes ≤ 4 →
    readRanges n r = .ok (l, r2) →
    l.length = n ∧
    r2.contents = r.contents ∧
    r2.arg_address_bytes = r.arg_address_bytes ∧
    r2.debug_range_bytes = r.debug_range_bytes ∧
    r2.current_index = r.current_index + n * (2 * r.debug_range_bytes) := by
  intro n
  induction n with
  | zero =>
    intro r l r2 hw h4 h
    unfold readRanges at h
    injection h with h1
    injection h1 with hl hr
    subst hl hr
    exact ⟨rfl, rfl, rfl, rfl, by omega⟩
  | succ n ih =>
    intro r l r2 hw h4 h
    unfold readRanges at h
    split at h
    · exact absurd h (by simp)
    · rename_i range_start r1 hra
      split at h
      · exact absurd h (by simp)
      · rename_i range_end rb hrb
        split at h
        · exact absurd h (by simp)
        · rename_i rest r3 hrec
          simp only [Except.ok.injEq, Prod.mk.injEq] at h
          obtain ⟨hl, hr⟩ := h
          subst hl hr
          have e1 := read_bytes_into_u32_ok_spec hw h4 hra
          have hwb1 : r1.debug_range_bytes = r.debug_range_bytes := by simp [e1]
          have e2 := read_bytes_into_u32_ok_spec (by rw [hwb1]; exact hw)
            (by rw [hwb1]; exact h4) hrb
          have hwb : rb.debug_range_bytes = r.debug_range_bytes := by
            simp [e2, e1]
          obtain ⟨ihl, ihc, iha, ihd, ihi⟩ := ih rb rest r3
            (by rw [hwb]; exact hw) (by rw [hwb]; exact h4) hrec
          rw [hwb] at ihi
          have hbc : rb.contents = r.contents := by simp [e2, e1]
          have hba : rb.arg_address_bytes = r.arg_address_bytes := by simp [e2, e1]
          have hbi : rb.current_index =
              r.current_index + r.debug_range_bytes + r.debug_range_bytes := by
            simp [e2, e1, hwb1]
          refine ⟨by simp [ihl], ?_, ?_, ?_, ?_⟩
          · rw [ihc, hbc]
          · rw [iha, hba]
          · rw [ihd, hwb]
          · rw [ihi, hbi]
            have hsm : (n + 1) * (2 * r.debug_range_bytes) =
                n * (2 * r.debug_range_bytes) + 2 * r.debug_range_bytes := by ring
            omega

/-- C7 counterexample: on the debug-entry bytes 1, 0, 0 (line-number
bytes 1 and 0, zero ranges), DebugEntry::read produces line number 1 —
the little-endian reading — and not 256 = 256 * 1 + 0, which the claimed
big-endian byte order would give. -/
theorem C7_counterexample :
    DebugEntry.read ⟨[1, 0, 0], 0, 0, 1⟩ = .ok (⟨1, 0, []⟩, ⟨[1, 0, 0], 3, 0, 1⟩) ∧
    (1 : Nat) ≠ 256 * 1 + 0 :=
  ⟨rfl, by decide⟩

/-- C7 amended: a successfully decoded debug entry consists of a 2-byte
line number read in little-endian byte order (low byte first), then a
1-byte range count, then exactly that many (start, end) address pairs
each read in the declared range-address width of 1 to 4 bytes, the whole
entry consuming 3 + count * 2 * width bytes. -/
theorem C7_debug_entry_decode (r r2 : KSMFileReader) (e : DebugEntry) (b0 b1 n : Nat)
    (hw : 1 ≤ r.debug_range_bytes) (hw4 : r.debug_range_bytes ≤ 4)
    (hb0 : r.contents[r.current_index]? = some b0)
    (hb1 : r.contents[r.current_index + 1]? = some b1)
    (h0 : b0 < 256) (h1 : b1 < 256)
    (hn : r.contents[r.current_index + 2]? = some n)
    (h : DebugEntry.read r = .ok (e, r2)) :
    e.line_number = b0 + 256 * b1 ∧
    e.number_ranges = n ∧
    e.ranges.length = n ∧
    r2.contents = r.contents ∧
    r2.current_index = r.current_index + 3 + n * (2 * r.debug_range_bytes) := by
  unfold DebugEntry.read at h
  split at h
  · exact absurd h (by simp)
  · rename_i v r1 hint
    split at h
    · exact absurd h (by simp)
    · rename_i cnt rc hcnt
      split at h
      · exact absurd h (by simp)
      · rename_i ranges r3 hranges
        simp only [Except.ok.injEq, Prod.mk.injEq] at h
        obtain ⟨he, hr⟩ := h
        subst he hr
        obtain ⟨⟨c0, c1, hg0, hg1, hv⟩, he1⟩ := read_int16_ok_spec hint
        have hc1 : r1.contents = r.contents := by rw [he1]
        have hi1 : r1.current_index = r.current_index + 2 := by rw [he1]
        have hw1 : r1.debug_range_bytes = r.debug_range_bytes := by rw [he1]
        rw [hb0] at hg0
        rw [hb1] at hg1
        injection hg0 with hg0
        injection hg1 with hg1
        subst hg0 hg1
        obtain ⟨hgn, he2⟩ := next_ok_spec hcnt
        rw [hc1, hi1] at hgn
        rw [show r.current_index + 2 = r.current_index + 1 + 1 from rfl] at hn
        rw [hn] at hgn
        injection hgn with hgn
        subst hgn
        have hcc : rc.contents = r.contents := by rw [he2, hc1]
        have hic : rc.current_index = r.current_index + 3 := by rw [he2]; simp [hi1]
        have hwc : rc.debug_range_bytes = r.debug_range_bytes := by rw [he2, hw1]
        obtain ⟨hrl, ihc, -, -, ihi⟩ := readRanges_spec _ _ _ _
          (by rw [hwc]; exact hw) (by rw [hwc]; exact hw4) hranges
        rw [hwc] at ihi
        refine ⟨?_, rfl, hrl, by rw [ihc, hcc], by rw [ihi, hic]⟩
        subst hv
        exact u16_of_i16_le b0 b1 h0 h1

/-- C7 witness: the amended statement evaluated on the concrete entry
bytes 1 0 (line 1), count 1, one pair (2, 3) at width 1. -/
theorem C7_debug_entry_decode_witness :
    (⟨1, 1, [(2, 3)]⟩ : DebugEntry).line_number = 1 + 256 * 0 ∧
    (⟨1, 1, [(2, 3)]⟩ : DebugEntry).number_ranges = 1 ∧
    (⟨1, 1, [(2, 3)]⟩ : DebugEntry).ranges.length = 1 ∧
    (⟨[1, 0, 1, 2, 3], 5, 0, 1⟩ : KSMFileReader).contents =
      (⟨[1, 0, 1, 2, 3], 0, 0, 1⟩ : KSMFileReader).contents ∧
    (⟨[1, 0, 1, 2, 3], 5, 0, 1⟩ : KSMFileReader).current_index =
      (⟨[1, 0, 1, 2, 3], 0, 0, 1⟩ : KSMFileReader).current_index + 3 + 1 * (2 * 1) :=
  C7_debug_entry_decode ⟨[1, 0, 1, 2, 3], 0, 0, 1⟩ ⟨[1, 0, 1, 2, 3], 5, 0, 1⟩
    ⟨1, 1, [(2, 3)]⟩ 1 0 1 (by decide) (by decide) rfl rfl (by decide) (by decide)
    rfl (by rfl)

theorem getElem_at_append (pre : List Nat) (x : Nat) (s : List Nat) :
    (pre ++ x :: s)[pre.length]? = some x := by
  rw [List.getElem?_append_right (le_refl pre.length)]
  simp

theorem peek_at (pre : List Nat) (x : Nat) (s : List Nat) (aw dw : Nat) :
    KSMFileReader.peek ⟨pre ++ x :: s, pre.length, aw, dw⟩ = .ok x := by
  unfold KSMFileReader.peek
  rw [show (⟨pre ++ x :: s, pre.length, aw, dw⟩ : KSMFileReader).contents[
    (⟨pre ++ x :: s, pre.length, aw, dw⟩ : KSMFileReader).current_index]? = some x
    from getElem_at_append pre x s]

theorem count_marker_pairs_spec (pairs : List Nat) :
    ∀ (pre rest : List Nat) (b tries fuel aw dw : Nat), b ≠ 37 →
    pairs.length + 1 ≤ fuel →
    count_marker_pairs fuel tries
      ⟨pre ++ (marker_pairs pairs ++ b :: rest), pre.length, aw, dw⟩ =
      .ok (tries + pairs.length,
        ⟨pre ++ (marker_pairs pairs ++ b :: rest),
          pre.length + 2 * pairs.length, aw, dw⟩) := by
  induction pairs with
  | nil =>
    intro pre rest b tries fuel aw dw hb hfuel
    match fuel, hfuel with
    | f + 1, _ =>
      unfold count_marker_pairs
      simp only [marker_pairs, List.nil_append]
      rw [peek_at pre b rest aw dw]
      simp [hb]
  | cons x tl ih =>
    intro pre rest b tries fuel aw dw hb hfuel
    match fuel, hfuel with
    | f + 1, hf =>
      have hfuel2 : tl.length + 1 ≤ f := by
        simp only [List.length_cons] at hf
        omega
      have hc : pre ++ (marker_pairs (x :: tl) ++ b :: rest) =
          pre ++ 37 :: (x :: (marker_pairs tl ++ b :: rest)) := by
        simp [marker_pairs]
      have hpop : KSMFileReader.pop
          ⟨pre ++ 37 :: (x :: (marker_pairs tl ++ b :: rest)), pre.length, aw, dw⟩ 2 =
          .ok ⟨(pre ++ [37, x]) ++ (marker_pairs tl ++ b :: rest),
            (pre ++ [37, x]).length, aw, dw⟩ := by
        unfold KSMFileReader.pop
        rw [if_pos (by simp only [List.length_append, List.length_cons]; omega)]
        simp
      unfold count_marker_pairs
      rw [hc, peek_at pre 37 (x :: (marker_pairs tl ++ b :: rest)) aw dw]
      simp only [eq_self_iff_true, if_true, hpop,
        ih (pre ++ [37, x]) rest b (tries + 1) f aw dw hb hfuel2]
      simp only [Except.ok.injEq, Prod.mk.injEq, KSMFileReader.mk.injEq]
      simp [marker_pairs]
      all_goals omega

theorem marker_pairs_length (l : List Nat) : (marker_pairs l).length = 2 * l.length := by
  induction l with
  | nil => simp [marker_pairs]
  | cons x tl ih => simp [marker_pairs, ih]; omega

/-- C8: after the marker bytes 37 70 (percent, F), read_section_type
counts the consecutive marker pairs that follow before a non-percent
byte: zero pairs yields a FUNCTION section, one yields INITIALIZATION,
two yields MAIN, and any greater count is the parse error, with the
reader left after the consumed marker bytes in the success cases. -/
theorem C8_section_type_marker_count (pre pairs rest : List Nat) (b aw dw : Nat)
    (hb : b ≠ 37) :
    CodeSection.read_section_type
      ⟨pre ++ 37 :: 70 :: (marker_pairs pairs ++ b :: rest), pre.length, aw, dw⟩ =
      match pairs.length with
      | 0 => .ok (.FUNCTION,
          ⟨pre ++ 37 :: 70 :: (marker_pairs pairs ++ b :: rest), pre.length + 2, aw, dw⟩)
      | 1 => .ok (.INITIALIZATION,
          ⟨pre ++ 37 :: 70 :: (marker_pairs pairs ++ b :: rest), pre.length + 4, aw, dw⟩)
      | 2 => .ok (.MAIN,
          ⟨pre ++ 37 :: 70 :: (marker_pairs pairs ++ b :: rest), pre.length + 6, aw, dw⟩)
      | _ => .error "Expected code section, none found!" := by
  have h1 : KSMFileReader.next
      ⟨pre ++ 37 :: 70 :: (marker_pairs pairs ++ b :: rest), pre.length, aw, dw⟩ =
      .ok (37, ⟨pre ++ 37 :: 70 :: (marker_pairs pairs ++ b :: rest),
        pre.length + 1, aw, dw⟩) := by
    unfold KSMFileReader.next
    rw [show (⟨pre ++ 37 :: 70 :: (marker_pairs pairs ++ b :: rest), pre.length, aw, dw⟩ :
      KSMFileReader).contents[(⟨pre ++ 37 :: 70 :: (marker_pairs pairs ++ b :: rest),
      pre.length, aw, dw⟩ : KSMFileReader).current_index]? = some 37
      from getElem_at_append pre 37 (70 :: (marker_pairs pairs ++ b :: rest))]
  have hform : pre ++ 37 :: 70 :: (marker_pairs pairs ++ b :: rest) =
      (pre ++ [37]) ++ 70 :: (marker_pairs pairs ++ b :: rest) := by simp
  have h2 : KSMFileReader.next
      ⟨pre ++ 37 :: 70 :: (marker_pairs pairs ++ b :: rest), pre.length + 1, aw, dw⟩ =
      .ok (70, ⟨pre ++ 37 :: 70 :: (marker_pairs pairs ++ b :: rest),
        pre.length + 2, aw, dw⟩) := by
    unfold KSMFileReader.next
    rw [show (⟨pre ++ 37 :: 70 :: (marker_pairs pairs ++ b :: rest), pre.length + 1, aw, dw⟩ :
      KSMFileReader).contents[(⟨pre ++ 37 :: 70 :: (marker_pairs pairs ++ b :: rest),
      pre.length + 1, aw, dw⟩ : KSMFileReader).current_index]? = some 70 from by
        simp only [hform]
        rw [show pre.length + 1 = (pre ++ [37]).length from by simp]
        exact getElem_at_append (pre ++ [37]) 70 (marker_pairs pairs ++ b :: rest)]
  have hcount := count_marker_pairs_spec pairs (pre ++ [37, 70]) rest b 0
    ((pre ++ 37 :: 70 :: (marker_pairs pairs ++ b :: rest)).length + 1) aw dw hb
    (by simp [marker_pairs_length]; omega)
  have hform2 : (pre ++ [37, 70]) ++ (marker_pairs pairs ++ b :: rest) =
      pre ++ 37 :: 70 :: (marker_pairs pairs ++ b :: rest) := by simp
  have hlen2 : (pre ++ [37, 70]).length = pre.length + 2 := by simp
  rw [hform2, hlen2] at hcount
  unfold CodeSection.read_section_type
  rw [h1]
  simp only [ne_eq, eq_self_iff_true, not_true, if_false, ite_false]
  rw [h2]
  simp only [ne_eq, eq_self_iff_true, not_true, if_false, ite_false]
  rw [hcount]
  simp only [Nat.zero_add]
  cases hn : pairs.length with
  | zero => simp
  | succ n1 =>
    cases n1 with
    | zero => simp
    | succ n2 =>
      cases n2 with
      | zero => simp
      | succ n3 => simp

/-- C8 witness: the marker-count statement evaluated on the concrete
bytes 37 70 37 73 49: one repeated marker pair, hence INITIALIZATION
with the reader advanced past four marker bytes. -/
theorem C8_section_type_marker_count_witness :
    CodeSection.read_section_type ⟨[37, 70, 37, 73, 49], 0, 1, 0⟩ =
      .ok (.INITIALIZATION, ⟨[37, 70, 37, 73, 49], 4, 1, 0⟩) :=
  C8_section_type_marker_count [] [73] [] 49 1 0 (by decide)

/-- C9: in the line-number gutter classifier of CodeSection::dump, when
the last instruction of a section starts its covering debug range
(addr = range_start) and the range extends beyond the instruction
(range_start + operand length < range_end), the classifier unwraps the
lookup of the instruction at the next index, which does not exist: the
dump panics, modelled as the none result. -/
theorem C9_last_instruction_gutter_panic (instrs : List Instr) (instr : Instr)
    (addr rs re : Nat)
    (hlast : instrs[instrs.length - 1]? = some instr)
    (haddr : addr = rs)
    (hext : rs + (instr.size - 1) < re) :
    line_number_state instrs (instrs.length - 1) addr rs re = none := by
  have hne : instrs ≠ [] := by
    intro h
    subst h
    simp at hlast
  have hlen : 0 < instrs.length := List.length_pos.mpr hne
  have hnone : instrs[instrs.length - 1 + 1]? = none := by
    apply List.getElem?_eq_none
    omega
  simp only [line_number_state, hlast]
  rw [if_neg (show ¬(addr = rs ∧ rs + (instr.size - 1) = re) by omega)]
  rw [if_pos haddr, hnone]

/-- C9 witness: the classifier evaluated on a one-instruction section
whose single (hence last) instruction starts a range ending later. -/
theorem C9_last_instruction_gutter_panic_witness :
    line_number_state [⟨49, 1, 0, []⟩] 0 0 0 5 = none :=
  C9_last_instruction_gutter_panic [⟨49, 1, 0, []⟩] ⟨49, 1, 0, []⟩ 0 0 5 rfl rfl
    (by decide)

/-- C10: for a nonempty buffer, KSMFileReader::eof is true exactly when
the read position is at or past contents.len() - 1, i.e. already while
one unread byte remains (first conjunct); consequently an iteration of
the debug-entry loop, which only starts when eof is false, begins at a
position at least two bytes before the end, so no entry ever begins at
the final byte (second conjunct); on a concrete buffer whose single
debug entry ends exactly one byte before the end, DebugSection::read
stops there and the trailing byte stays unconsumed (third conjunct); and
for an empty buffer the usize subtraction contents.len() - 1 wraps
around, so eof is false for every realistic position (last conjunct). -/
theorem C10_eof_last_byte (r : KSMFileReader)
    (h1 : 1 ≤ r.contents.length) (h2 : r.contents.length < 2 ^ 64) :
    (r.eof = true ↔ r.contents.length - 1 ≤ r.current_index) ∧
    (r.eof = false → r.current_index + 2 ≤ r.contents.length) ∧
    DebugSection.read ⟨[37, 68, 1, 5, 0, 0, 9], 0, 0, 0⟩ =
      .ok (⟨1, 5, [⟨5, 0, []⟩]⟩, ⟨[37, 68, 1, 5, 0, 0, 9], 6, 0, 1⟩) ∧
    (∀ idx aw dw : Nat, idx < 2 ^ 64 - 1 → KSMFileReader.eof ⟨[], idx, aw, dw⟩ = false) := by
  have hp : (2 : Nat) ^ 64 = 18446744073709551616 := by norm_num
  have hm : (r.contents.length + (2 ^ 64 - 1)) % 2 ^ 64 = r.contents.length - 1 := by
    rw [hp] at h2 ⊢
    omega
  refine ⟨?_, ?_, by rfl, ?_⟩
  · unfold KSMFileReader.eof
    rw [hm]
    simp
  · intro hf
    unfold KSMFileReader.eof at hf
    rw [hm] at hf
    simp at hf
    omega
  · intro idx aw dw hidx
    rw [hp] at hidx
    unfold KSMFileReader.eof
    simp only [List.length_nil, Nat.zero_add, hp]
    simp
    omega

/-- C10 witness: the eof statement evaluated on the two-byte buffer with
the position on its final byte: eof already reports true. -/
theorem C10_eof_last_byte_witness :
    (KSMFileReader.eof ⟨[1, 2], 1, 0, 0⟩ = true ↔
      ([1, 2] : List Nat).length - 1 ≤ 1) ∧
    (KSMFileReader.eof ⟨[1, 2], 1, 0, 0⟩ = false → 1 + 2 ≤ ([1, 2] : List Nat).length) ∧
    DebugSection.read ⟨[37, 68, 1, 5, 0, 0, 9], 0, 0, 0⟩ =
      .ok (⟨1, 5, [⟨5, 0, []⟩]⟩, ⟨[37, 68, 1, 5, 0, 0, 9], 6, 0, 1⟩) ∧
    (∀ idx aw dw : Nat, idx < 2 ^ 64 - 1 → KSMFileReader.eof ⟨[], idx, aw, dw⟩ = false) :=
  C10_eof_last_byte ⟨[1, 2], 1, 0, 0⟩ (by decide) (by norm_num)

end KDump
